import Mathlib

/-!
# QOpcUaClient: node id resolution and node lookup

A shallow embedding of `src/opcua/client/qopcuaclient.cpp`.

* A `QString` is the list of its characters, a `QStringList` a list of strings.
* The private object `QOpcUaClientPrivate` is a record; the member functions of
  `QOpcUaClient` take it as their first argument.
* `qCWarning(QT_OPCUA) << ...` is an observable effect: every function returns the
  warnings it logs, in order.
* The backend `QOpcUaClientImpl` is a record of functions; calls made to it are
  returned alongside the result, so that "the backend is not consulted" can be stated.
* The optional out-parameter `bool *ok` is modelled by the value the function stores
  through it; every path of the two resolving functions stores one.
* Where a claim speaks of what a call leaves behind, the member is also given as a `Step`:
  the outcome together with the private object after the call.
* `int index` is an `Int`: `indexOf` returns `-1` or a position below the size of the list,
  and a `QStringList` holds fewer than `2^31` entries, so the arithmetic never wraps.
-/

namespace QOpcUa

/-- A `QString`, as the list of its characters. -/
abbrev QString := List Char

/-- A `QStringList`. -/
abbrev QStringList := List QString

/-- A `QUrl`, kept as its text. -/
abbrev QUrl := QString

/-- Qt `QString::isEmpty()`. -/
def QString.isEmpty (s : QString) : Bool :=
  match s with
  | [] => true
  | _ :: _ => false

/-- Scan of `QStringList::indexOf`: the position of the first element equal to `s`,
counted from `i`, and `-1` when there is none. -/
def indexOfFrom (s : QString) : QStringList → Nat → Int
  | [], _ => -1
  | x :: xs, i => if x = s then (i : Int) else indexOfFrom s xs (i + 1)

/-- Qt `QStringList::indexOf(s)`: index of the first exact match, `-1` if `s` does not occur. -/
def QStringList.indexOf (l : QStringList) (s : QString) : Int :=
  indexOfFrom s l 0

/-- Qt `QString::split(sep)` for a one-character separator, with the default
`Qt::KeepEmptyParts` and case-sensitive matching: the pieces between the separators,
empty pieces included; a string without separator gives the one-element list. -/
def QString.split (sep : Char) : QString → QStringList
  | [] => [[]]
  | c :: cs =>
    if c = sep then [] :: QString.split sep cs
    else
      match QString.split sep cs with
      | [] => [[c]]
      | p :: ps => (c :: p) :: ps

/-- Qt `QStringList::isEmpty()`. -/
def QStringList.isEmpty (l : QStringList) : Bool :=
  match l with
  | [] => true
  | _ :: _ => false

/-- Qt `QStringList::size()`. -/
def QStringList.size (l : QStringList) : Nat := l.length

/-- Qt `QStringList::at(i)`; the callers check the size first, out of range gives the empty
string here. -/
def QStringList.at (l : QStringList) (i : Nat) : QString :=
  l.getD i []

/-- Decimal text of an `int`, as `QString::arg(int)` substitutes it. -/
def QString.number (n : Int) : QString :=
  if n < 0 then '-' :: Nat.toDigits 10 n.natAbs else Nat.toDigits 10 n.toNat

/-- The call `QStringLiteral("ns=%1;").arg(index)`: the format has the single place marker
`%1`, which `arg` replaces by the decimal text of `index`. -/
def nsArg (index : Int) : QString :=
  "ns=".toList ++ QString.number index ++ ";".toList

/-- Type `QOpcUa::QExpandedNodeId`: the three values read through `serverIndex()`,
`namespaceUri()` and `nodeId()`. -/
structure QExpandedNodeId where
  serverIndex : Nat
  namespaceUri : QString
  nodeId : QString
  deriving DecidableEq, Repr

/-- Modelled from the spec: the declaration of `QOpcUa::QQualifiedName` is not part of the
sources; the data model gives it as the pair of an integer namespace index and a name.
The default-constructed value has index 0 and the empty name. -/
structure QQualifiedName where
  namespaceIndex : Int
  name : QString
  deriving DecidableEq, Repr

/-- Constructor `QOpcUa::QQualifiedName()`. -/
def QQualifiedName.empty : QQualifiedName := ⟨0, []⟩

end QOpcUa

open QOpcUa

/-- Enum `QOpcUaClient::ClientState`. -/
inductive ClientState
  | Disconnected
  | Connecting
  | Connected
  | Closing
  deriving DecidableEq, Repr

/-- Enum `QOpcUaClient::ClientError`. -/
inductive ClientError
  | NoError
  | InvalidUrl
  | AccessDenied
  | ConnectionError
  | UnknownError
  deriving DecidableEq, Repr

/-- A `QOpcUaNode *` handed out by the backend; `none` stands for `nullptr`. -/
structure QOpcUaNode where
  handle : Nat
  deriving DecidableEq, Repr

/-- The messages logged with `qCWarning(QT_OPCUA)`, one constructor per call site. -/
inductive Warning
  /-- Message "Can't create a QOpcuaNode for a node on a different server." -/
  | nodeOnDifferentServer
  /-- Message "Can't resolve a namespace index on a different server." -/
  | namespaceOnDifferentServer
  /-- Message "Namespaces table missing, unable to resolve namespace URI." -/
  | namespacesTableMissing
  /-- Message "Failed to resolve namespace" followed by the namespace URI. -/
  | failedToResolveNamespace (namespaceUri : QString)
  /-- Message "Failed to split node id" followed by the node id. -/
  | failedToSplitNodeId (nodeId : QString)
  deriving DecidableEq, Repr

/-- The backend behind `d->m_impl`: what its `node`, `requestEndpoints` and `backend`
member functions return. -/
structure QOpcUaClientImpl where
  node : QString → Option QOpcUaNode
  requestEndpoints : QUrl → Bool
  backend : QString

/-- The private object reached through `Q_D`. `m_namespaceArray` is the cached table that
`d->namespaceArray()` returns, `updateNamespaceArray` the dispatch result of
`d->updateNamespaceArray()`. -/
structure QOpcUaClientPrivate where
  m_impl : QOpcUaClientImpl
  m_state : ClientState
  m_error : ClientError
  m_url : QUrl
  m_namespaceArray : QStringList
  updateNamespaceArray : Bool

/-- A call into the backend or into the private object. -/
inductive Dispatch
  | implNode (nodeId : QString)
  | implRequestEndpoints (url : QUrl)
  | privateUpdateNamespaceArray
  deriving DecidableEq, Repr

/-- What a resolving function hands back: the returned value, the flag stored through
`ok`, and the warnings logged. -/
structure Resolved (α : Type) where
  value : α
  ok : Bool
  warnings : List Warning
  deriving DecidableEq, Repr

/-- What a dispatching function hands back: the returned value, the warnings logged and
the calls made to the backend. -/
structure Dispatched (α : Type) where
  value : α
  warnings : List Warning
  calls : List Dispatch
  deriving DecidableEq, Repr

/-- A member function call seen as a step on the private object: what the call hands back
and the private object as the call leaves it. -/
structure Step (α : Type) where
  outcome : α
  after : QOpcUaClientPrivate

namespace QOpcUaClient

/-- Member `QOpcUaClient::url()`. -/
def url (d : QOpcUaClientPrivate) : QUrl := d.m_url

/-- Member `QOpcUaClient::state()`. -/
def state (d : QOpcUaClientPrivate) : ClientState := d.m_state

/-- Member `QOpcUaClient::error()`. -/
def error (d : QOpcUaClientPrivate) : ClientError := d.m_error

/-- Member `QOpcUaClient::namespaceArray()`. -/
def namespaceArray (d : QOpcUaClientPrivate) : QStringList := d.m_namespaceArray

/-- Member `QOpcUaClient::node(const QString &nodeId)`. -/
def node (d : QOpcUaClientPrivate) (nodeId : QString) : Dispatched (Option QOpcUaNode) :=
  if state d ≠ ClientState.Connected then
    ⟨none, [], []⟩
  else
    ⟨d.m_impl.node nodeId, [], [Dispatch.implNode nodeId]⟩

/-- Member `QOpcUaClient::resolveExpandedNodeId(expandedNodeId, ok)`. -/
def resolveExpandedNodeId (d : QOpcUaClientPrivate) (expandedNodeId : QExpandedNodeId) :
    Resolved QString :=
  if expandedNodeId.serverIndex ≠ 0 ∧ ¬ QString.isEmpty expandedNodeId.namespaceUri then
    ⟨[], false, [Warning.namespaceOnDifferentServer]⟩
  else if QString.isEmpty expandedNodeId.namespaceUri then
    ⟨expandedNodeId.nodeId, true, []⟩
  else if QStringList.size (namespaceArray d) = 0 then
    ⟨[], false, [Warning.namespacesTableMissing]⟩
  else
    let index := QStringList.indexOf (namespaceArray d) expandedNodeId.namespaceUri
    if index < 0 then
      ⟨[], false, [Warning.failedToResolveNamespace expandedNodeId.namespaceUri]⟩
    else
      let splitId := QString.split ';' expandedNodeId.nodeId
      if QStringList.size splitId ≠ 2 then
        ⟨[], false, [Warning.failedToSplitNodeId expandedNodeId.nodeId]⟩
      else
        ⟨nsArg index ++ QStringList.at splitId 1, true, []⟩

/-- Member `QOpcUaClient::node(const QOpcUa::QExpandedNodeId &expandedNodeId)`. The warnings of
the inner `resolveExpandedNodeId` call are part of what the call logs. -/
def nodeExpanded (d : QOpcUaClientPrivate) (expandedNodeId : QExpandedNodeId) :
    Dispatched (Option QOpcUaNode) :=
  if expandedNodeId.serverIndex ≠ 0 then
    ⟨none, [Warning.nodeOnDifferentServer], []⟩
  else
    let r := resolveExpandedNodeId d expandedNodeId
    let nodeId := r.value
    if ¬ QString.isEmpty nodeId then
      let n := node d nodeId
      ⟨n.value, r.warnings ++ n.warnings, n.calls⟩
    else
      ⟨none, r.warnings, []⟩

/-- Member `QOpcUaClient::updateNamespaceArray()`. -/
def updateNamespaceArray (d : QOpcUaClientPrivate) : Dispatched Bool :=
  if state d ≠ ClientState.Connected then
    ⟨false, [], []⟩
  else
    ⟨d.updateNamespaceArray, [], [Dispatch.privateUpdateNamespaceArray]⟩

/-- Member `QOpcUaClient::qualifiedNameFromNamespaceUri(namespaceUri, name, ok)`. -/
def qualifiedNameFromNamespaceUri (d : QOpcUaClientPrivate) (namespaceUri : QString)
    (name : QString) : Resolved QQualifiedName :=
  if QStringList.isEmpty (namespaceArray d) then
    ⟨QQualifiedName.empty, false, [Warning.namespacesTableMissing]⟩
  else
    let index := QStringList.indexOf (namespaceArray d) namespaceUri
    if index < 0 then
      ⟨QQualifiedName.empty, false, [Warning.failedToResolveNamespace namespaceUri]⟩
    else
      ⟨⟨index, name⟩, true, []⟩

/-- Member `QOpcUaClient::requestEndpoints(url)`. -/
def requestEndpoints (d : QOpcUaClientPrivate) (url : QUrl) : Dispatched Bool :=
  ⟨d.m_impl.requestEndpoints url, [], [Dispatch.implRequestEndpoints url]⟩

/-- Member `QOpcUaClient::backend()`. -/
def backend (d : QOpcUaClientPrivate) : QString := d.m_impl.backend

/-- The call `resolveExpandedNodeId(expandedNodeId, ok)` as a step: the member is `const`,
reads `namespaceArray()` and assigns to no member, so the private object is left as found. -/
def resolveExpandedNodeIdStep (d : QOpcUaClientPrivate) (expandedNodeId : QExpandedNodeId) :
    Step (Resolved QString) :=
  ⟨resolveExpandedNodeId d expandedNodeId, d⟩

/-- The call `updateNamespaceArray()` as a step. When the state is not `Connected` the
member returns before it touches anything. Otherwise it runs `d->updateNamespaceArray()`,
which is not part of the sources: `refreshed` is the private object as that call leaves it,
and the field `updateNamespaceArray` of `d` is what it returns. -/
def updateNamespaceArrayStep (d refreshed : QOpcUaClientPrivate) : Step (Dispatched Bool) :=
  if state d ≠ ClientState.Connected then
    ⟨⟨false, [], []⟩, d⟩
  else
    ⟨⟨d.updateNamespaceArray, [], [Dispatch.privateUpdateNamespaceArray]⟩, refreshed⟩

/-- Modelled from the spec: the backend member `requestEndpoints` is not part of the
sources; by the spec it only accepts or refuses the request and answers later through a
completion. The body of `QOpcUaClient::requestEndpoints(url)` assigns to no member, so the
call as a step leaves the private object as found. -/
def requestEndpointsStep (d : QOpcUaClientPrivate) (url : QUrl) : Step (Dispatched Bool) :=
  ⟨requestEndpoints d url, d⟩

end QOpcUaClient

open QOpcUaClient

/-- A backend that knows no node and accepts no request. -/
def nullImpl : QOpcUaClientImpl := ⟨fun _ => none, fun _ => false, "null".toList⟩

/-- A backend that hands out node 7 for every node id. -/
def anyImpl : QOpcUaClientImpl := ⟨fun _ => some ⟨7⟩, fun _ => true, "any".toList⟩

/-- A client in state `s` over backend `impl` with the cached namespace table `table`. -/
def mkClient (impl : QOpcUaClientImpl) (s : ClientState) (table : QStringList) :
    QOpcUaClientPrivate :=
  ⟨impl, s, ClientError.NoError, [], table, true⟩

/-- A backend that knows the root node `ns=0;i=84` and no other. -/
def rootImpl : QOpcUaClientImpl :=
  ⟨fun nodeId => if nodeId = "ns=0;i=84".toList then some ⟨84⟩ else none, fun _ => true,
    "root".toList⟩

/-- The table of the round-trip example. -/
def tableAB : QStringList := ["urn:a".toList, "urn:b".toList]

/-- A client that is closing after a refused login to `opc.tcp://h:4840`, over the table
of the round-trip example. -/
def closingClient : QOpcUaClientPrivate :=
  ⟨anyImpl, ClientState.Closing, ClientError.AccessDenied, "opc.tcp://h:4840".toList, tableAB,
    false⟩

/-- A connected client whose refresh request is refused, over the table of the round-trip
example. -/
def refusedClient : QOpcUaClientPrivate :=
  ⟨rootImpl, ClientState.Connected, ClientError.NoError, "opc.tcp://h:4840".toList, tableAB,
    false⟩

/-! ## Lemmas on the string helpers -/

theorem QString.isEmpty_iff (s : QString) : QString.isEmpty s = true ↔ s = [] := by
  cases s <;> simp [QString.isEmpty]

theorem QString.isEmpty_false_iff (s : QString) : QString.isEmpty s = false ↔ s ≠ [] := by
  cases s <;> simp [QString.isEmpty]

theorem indexOfFrom_first (s : QString) :
    ∀ (l : QStringList) (i k : Nat), l[k]? = some s → (∀ j, j < k → l[j]? ≠ some s) →
      indexOfFrom s l i = ((i + k : Nat) : Int) := by
  intro l
  induction l with
  | nil => intro i k hk; simp at hk
  | cons x xs ih =>
    intro i k hk hfirst
    cases k with
    | zero =>
      simp at hk
      simp [indexOfFrom, hk]
    | succ k =>
      have hx : x ≠ s := by
        have := hfirst 0 (Nat.succ_pos k)
        simpa using this
      have hk2 : xs[k]? = some s := by simpa using hk
      have hf2 : ∀ j, j < k → xs[j]? ≠ some s := by
        intro j hj
        have := hfirst (j + 1) (Nat.succ_lt_succ hj)
        simpa using this
      rw [indexOfFrom, if_neg hx, ih (i + 1) k hk2 hf2]
      congr 1
      omega

theorem indexOfFrom_not_mem (s : QString) :
    ∀ (l : QStringList) (i : Nat), s ∉ l → indexOfFrom s l i = -1 := by
  intro l
  induction l with
  | nil => intro i _; rfl
  | cons x xs ih =>
    intro i h
    have hx : x ≠ s := fun e => h (by simp [e])
    have hxs : s ∉ xs := fun e => h (by simp [e])
    rw [indexOfFrom, if_neg hx, ih (i + 1) hxs]

theorem exists_first_of_mem (s : QString) :
    ∀ (l : QStringList), s ∈ l → ∃ k : Nat, l[k]? = some s ∧ ∀ j : Nat, j < k → l[j]? ≠ some s := by
  intro l
  induction l with
  | nil => intro h; simp at h
  | cons x xs ih =>
    intro h
    by_cases hx : x = s
    · exact ⟨0, by simp [hx], by intro j hj; omega⟩
    · have hxs : s ∈ xs := by
        rcases List.mem_cons.mp h with e | e
        · exact absurd e.symm hx
        · exact e
      obtain ⟨k, hk, hfirst⟩ := ih hxs
      refine ⟨k + 1, by simpa using hk, ?_⟩
      intro j hj
      cases j with
      | zero => simpa using hx
      | succ j => simpa using hfirst j (by omega)

theorem QStringList.indexOf_first (l : QStringList) (s : QString) (k : Nat)
    (hk : l[k]? = some s) (hfirst : ∀ j, j < k → l[j]? ≠ some s) :
    QStringList.indexOf l s = (k : Int) := by
  simpa [QStringList.indexOf] using indexOfFrom_first s l 0 k hk hfirst

theorem QStringList.indexOf_neg_iff (l : QStringList) (s : QString) :
    QStringList.indexOf l s < 0 ↔ s ∉ l := by
  constructor
  · intro h hmem
    obtain ⟨k, hk, hfirst⟩ := exists_first_of_mem s l hmem
    rw [QStringList.indexOf_first l s k hk hfirst] at h
    omega
  · intro h
    simp [QStringList.indexOf, indexOfFrom_not_mem s l 0 h]

theorem QString.split_ne_nil (sep : Char) : ∀ s : QString, QString.split sep s ≠ [] := by
  intro s
  induction s with
  | nil => simp [QString.split]
  | cons c cs ih =>
    by_cases h : c = sep
    · simp [QString.split, h]
    · cases hs : QString.split sep cs with
      | nil => exact absurd hs ih
      | cons p ps => simp [QString.split, h, hs]

theorem QString.split_length (sep : Char) :
    ∀ s : QString, (QString.split sep s).length = s.count sep + 1 := by
  intro s
  induction s with
  | nil => simp [QString.split]
  | cons c cs ih =>
    by_cases h : c = sep
    · subst h
      simp [QString.split, ih]
    · have hc : (c == sep) = false := by simpa using h
      cases hs : QString.split sep cs with
      | nil => exact absurd hs (QString.split_ne_nil sep cs)
      | cons p ps =>
        rw [hs] at ih
        simp [QString.split, h, hs, List.count_cons, hc] at ih ⊢
        exact ih

theorem QString.split_of_not_mem (sep : Char) :
    ∀ r : QString, sep ∉ r → QString.split sep r = [r] := by
  intro r
  induction r with
  | nil => intro _; rfl
  | cons c cs ih =>
    intro h
    have hc : c ≠ sep := fun e => h (by simp [e])
    have hcs : sep ∉ cs := fun e => h (by simp [e])
    simp [QString.split, hc, ih hcs]

theorem QString.split_append (sep : Char) (r : QString) :
    ∀ p : QString, sep ∉ p → QString.split sep (p ++ sep :: r) = p :: QString.split sep r := by
  intro p
  induction p with
  | nil => intro _; simp [QString.split]
  | cons c cs ih =>
    intro h
    have hc : c ≠ sep := fun e => h (by simp [e])
    have hcs : sep ∉ cs := fun e => h (by simp [e])
    simp [QString.split, hc, ih hcs]

theorem QString.number_natCast (k : Nat) : QString.number (k : Int) = Nat.toDigits 10 k := by
  simp [QString.number]

theorem resolveExpandedNodeId_value_of_failed (d : QOpcUaClientPrivate) (e : QExpandedNodeId)
    (h : (resolveExpandedNodeId d e).ok = false) : (resolveExpandedNodeId d e).value = [] := by
  unfold resolveExpandedNodeId at h ⊢
  dsimp only at h ⊢
  split_ifs at h ⊢ <;> rfl

theorem node_value_of_not_connected (d : QOpcUaClientPrivate) (nodeId : QString)
    (h : state d ≠ ClientState.Connected) : (node d nodeId).value = none := by
  simp [node, h]

/-! ## resolveExpandedNodeId -/

/-- C1: with server index 0, a non-empty namespace URI whose first occurrence in the
namespace table is at index `k`, and a node id `p;r` where neither `p` nor `r` has a
semicolon, the resolution succeeds and returns `ns=` followed by the decimal text of `k`,
a semicolon and `r`. -/
theorem resolveExpandedNodeId_success (d : QOpcUaClientPrivate) (uri p r : QString) (k : Nat)
    (huri : uri ≠ [])
    (hk : (namespaceArray d)[k]? = some uri)
    (hfirst : ∀ j, j < k → (namespaceArray d)[j]? ≠ some uri)
    (hp : ';' ∉ p) (hr : ';' ∉ r) :
    resolveExpandedNodeId d ⟨0, uri, p ++ ';' :: r⟩
      = ⟨"ns=".toList ++ Nat.toDigits 10 k ++ ";".toList ++ r, true, []⟩ := by
  have hne : namespaceArray d ≠ [] := by
    intro h0
    rw [h0] at hk
    simp at hk
  have hk0 : ¬ ((k : Int) < 0) := by omega
  have hidx := QStringList.indexOf_first (namespaceArray d) uri k hk hfirst
  have hsplit : QString.split ';' (p ++ ';' :: r) = [p, r] := by
    rw [QString.split_append ';' r p hp, QString.split_of_not_mem ';' r hr]
  have he : QString.isEmpty uri = false := (QString.isEmpty_false_iff uri).mpr huri
  simp [resolveExpandedNodeId, he, hne, hk0, hidx, hsplit, nsArg, QString.number_natCast,
    QStringList.at, QStringList.size]

/-- Witness of C1: table `urn:a`, `urn:b`, URI `urn:b`, node id `i=default;i=42` resolves to
`ns=1;i=42`. -/
theorem resolveExpandedNodeId_success_witness :
    resolveExpandedNodeId (mkClient nullImpl ClientState.Disconnected tableAB)
        ⟨0, "urn:b".toList, "i=default;i=42".toList⟩
      = ⟨"ns=1;i=42".toList, true, []⟩ :=
  resolveExpandedNodeId_success (mkClient nullImpl ClientState.Disconnected tableAB)
    "urn:b".toList "i=default".toList "i=42".toList 1
    (by decide) (by decide) (by decide) (by decide) (by decide)

/-- Counterexample to C2: a node id on server 1 without namespace URI is resolved
successfully, the node id being returned as it is. -/
theorem resolveExpandedNodeId_serverIndex_emptyUri_succeeds :
    resolveExpandedNodeId (mkClient nullImpl ClientState.Connected tableAB)
        ⟨1, [], "i=42".toList⟩
      = ⟨"i=42".toList, true, []⟩ := by
  decide

/-- C2, amended: for a server index other than 0 the resolution fails exactly when a
namespace URI is present, and then returns the empty string; without a namespace URI it
succeeds and returns the node id as it is. The namespace table plays no part. -/
theorem resolveExpandedNodeId_serverIndex (d : QOpcUaClientPrivate) (e : QExpandedNodeId)
    (hs : e.serverIndex ≠ 0) :
    ((resolveExpandedNodeId d e).ok = false ↔ e.namespaceUri ≠ []) ∧
    (e.namespaceUri ≠ [] → (resolveExpandedNodeId d e).value = []) ∧
    (e.namespaceUri = [] → resolveExpandedNodeId d e = ⟨e.nodeId, true, []⟩) := by
  by_cases hu : e.namespaceUri = []
  · simp [resolveExpandedNodeId, hu, QString.isEmpty]
  · have he : QString.isEmpty e.namespaceUri = false := (QString.isEmpty_false_iff _).mpr hu
    simp [resolveExpandedNodeId, he, hu, hs]

/-- Witness of the amended C2, on server 1 with the URI `urn:b`. -/
theorem resolveExpandedNodeId_serverIndex_witness :
    ((resolveExpandedNodeId (mkClient nullImpl ClientState.Connected tableAB)
        ⟨1, "urn:b".toList, "i=42".toList⟩).ok = false ↔ "urn:b".toList ≠ []) ∧
    ("urn:b".toList ≠ [] →
      (resolveExpandedNodeId (mkClient nullImpl ClientState.Connected tableAB)
        ⟨1, "urn:b".toList, "i=42".toList⟩).value = []) ∧
    ("urn:b".toList = [] →
      resolveExpandedNodeId (mkClient nullImpl ClientState.Connected tableAB)
        ⟨1, "urn:b".toList, "i=42".toList⟩ = ⟨"i=42".toList, true, []⟩) :=
  resolveExpandedNodeId_serverIndex (mkClient nullImpl ClientState.Connected tableAB)
    ⟨1, "urn:b".toList, "i=42".toList⟩ (by decide)

/-- C3: with a server index other than 0 and a non-empty namespace URI the resolution
fails with `ok = false` and the empty string, for every namespace table and node id; the
warning logged is the one about a different server. -/
theorem resolveExpandedNodeId_crossServer (d : QOpcUaClientPrivate) (e : QExpandedNodeId)
    (hs : e.serverIndex ≠ 0) (hu : e.namespaceUri ≠ []) :
    resolveExpandedNodeId d e = ⟨[], false, [Warning.namespaceOnDifferentServer]⟩ := by
  have he : QString.isEmpty e.namespaceUri = false := (QString.isEmpty_false_iff _).mpr hu
  simp [resolveExpandedNodeId, he, hs]

/-- Witness of C3: server index 1, URI `urn:b`, node id `i=42`, over a table that holds
the URI. -/
theorem resolveExpandedNodeId_crossServer_witness :
    resolveExpandedNodeId (mkClient anyImpl ClientState.Connected tableAB)
        ⟨1, "urn:b".toList, "i=42".toList⟩
      = ⟨[], false, [Warning.namespaceOnDifferentServer]⟩ :=
  resolveExpandedNodeId_crossServer (mkClient anyImpl ClientState.Connected tableAB)
    ⟨1, "urn:b".toList, "i=42".toList⟩ (by decide) (by decide)

/-- C4: with server index 0 and an empty namespace URI the resolution succeeds and returns
the node id as it is, whatever the namespace table holds; nothing is logged. -/
theorem resolveExpandedNodeId_emptyUri (d : QOpcUaClientPrivate) (e : QExpandedNodeId)
    (hs : e.serverIndex = 0) (hu : e.namespaceUri = []) :
    resolveExpandedNodeId d e = ⟨e.nodeId, true, []⟩ := by
  have he : QString.isEmpty e.namespaceUri = true := (QString.isEmpty_iff _).mpr hu
  simp [resolveExpandedNodeId, he, hs]

/-- Witness of C4: node id `ns=3;s=x` without URI over the empty table. -/
theorem resolveExpandedNodeId_emptyUri_witness :
    resolveExpandedNodeId (mkClient nullImpl ClientState.Disconnected [])
        ⟨0, [], "ns=3;s=x".toList⟩
      = ⟨"ns=3;s=x".toList, true, []⟩ :=
  resolveExpandedNodeId_emptyUri (mkClient nullImpl ClientState.Disconnected [])
    ⟨0, [], "ns=3;s=x".toList⟩ rfl rfl

/-- C5: over an empty namespace table, every resolution of a node id with a non-empty
namespace URI on server 0 and every `qualifiedNameFromNamespaceUri` call fails, logging
the table-missing warning and no failed-to-resolve-namespace warning. -/
theorem emptyTable_tableMissing (d : QOpcUaClientPrivate) (ht : namespaceArray d = []) :
    (∀ e : QExpandedNodeId, e.serverIndex = 0 → e.namespaceUri ≠ [] →
      resolveExpandedNodeId d e = ⟨[], false, [Warning.namespacesTableMissing]⟩ ∧
      ∀ u, Warning.failedToResolveNamespace u ∉ (resolveExpandedNodeId d e).warnings) ∧
    (∀ uri name : QString,
      qualifiedNameFromNamespaceUri d uri name
        = ⟨QQualifiedName.empty, false, [Warning.namespacesTableMissing]⟩ ∧
      ∀ u, Warning.failedToResolveNamespace u ∉
        (qualifiedNameFromNamespaceUri d uri name).warnings) := by
  constructor
  · intro e hs hu
    have he : QString.isEmpty e.namespaceUri = false := (QString.isEmpty_false_iff _).mpr hu
    simp [resolveExpandedNodeId, he, hs, ht, QStringList.size]
  · intro uri name
    simp [qualifiedNameFromNamespaceUri, ht, QStringList.isEmpty]

/-- Witness of C5: the empty table with the URI `urn:a`, and with the empty URI for the
qualified name. -/
theorem emptyTable_tableMissing_witness :
    resolveExpandedNodeId (mkClient nullImpl ClientState.Connected [])
        ⟨0, "urn:a".toList, "i=default;i=42".toList⟩
      = ⟨[], false, [Warning.namespacesTableMissing]⟩ ∧
    qualifiedNameFromNamespaceUri (mkClient nullImpl ClientState.Connected []) [] "n".toList
      = ⟨QQualifiedName.empty, false, [Warning.namespacesTableMissing]⟩ :=
  ⟨((emptyTable_tableMissing (mkClient nullImpl ClientState.Connected []) rfl).1
      ⟨0, "urn:a".toList, "i=default;i=42".toList⟩ rfl (by decide)).1,
   ((emptyTable_tableMissing (mkClient nullImpl ClientState.Connected []) rfl).2
      [] "n".toList).1⟩

/-- C6: with server index 0 and a non-empty namespace URI that the namespace table holds, a
node id whose number of semicolons is not one (none, or two or more) makes the resolution
fail with `ok = false` and the empty string; the warning logged is the failed-to-split one,
which is not the failed-to-resolve-namespace one. -/
theorem resolveExpandedNodeId_malformed (d : QOpcUaClientPrivate) (e : QExpandedNodeId)
    (hs : e.serverIndex = 0) (hu : e.namespaceUri ≠ [])
    (hmem : e.namespaceUri ∈ namespaceArray d) (hc : e.nodeId.count ';' ≠ 1) :
    resolveExpandedNodeId d e = ⟨[], false, [Warning.failedToSplitNodeId e.nodeId]⟩ ∧
    (∀ u, Warning.failedToSplitNodeId e.nodeId ≠ Warning.failedToResolveNamespace u) ∧
    (∀ u, Warning.failedToResolveNamespace u ∉ (resolveExpandedNodeId d e).warnings) := by
  have he : QString.isEmpty e.namespaceUri = false := (QString.isEmpty_false_iff _).mpr hu
  have hne : namespaceArray d ≠ [] := List.ne_nil_of_mem hmem
  have hidx : ¬ (QStringList.indexOf (namespaceArray d) e.namespaceUri < 0) := by
    rw [QStringList.indexOf_neg_iff]
    exact fun h => h hmem
  have hlen : (QString.split ';' e.nodeId).length ≠ 2 := by
    rw [QString.split_length]
    omega
  simp [resolveExpandedNodeId, he, hs, hne, hidx, hlen, QStringList.size]

/-- Witness of C6: table `urn:a`, `urn:b`, URI `urn:a`, node id `no-semicolon`. -/
theorem resolveExpandedNodeId_malformed_witness :
    resolveExpandedNodeId (mkClient nullImpl ClientState.Connected tableAB)
        ⟨0, "urn:a".toList, "no-semicolon".toList⟩
      = ⟨[], false, [Warning.failedToSplitNodeId "no-semicolon".toList]⟩ :=
  (resolveExpandedNodeId_malformed (mkClient nullImpl ClientState.Connected tableAB)
    ⟨0, "urn:a".toList, "no-semicolon".toList⟩ rfl (by decide) (by decide) (by decide)).1

/-! ## qualifiedNameFromNamespaceUri -/

/-- C7: `qualifiedNameFromNamespaceUri` fails exactly when the namespace table is empty or
does not hold the URI, and then returns the empty qualified name; when the table holds the
URI it succeeds and returns the index of the first occurrence of the URI together with the
name as given. -/
theorem qualifiedNameFromNamespaceUri_spec (d : QOpcUaClientPrivate) (uri name : QString) :
    ((qualifiedNameFromNamespaceUri d uri name).ok = false ↔
      (namespaceArray d = [] ∨ uri ∉ namespaceArray d)) ∧
    ((qualifiedNameFromNamespaceUri d uri name).ok = false →
      (qualifiedNameFromNamespaceUri d uri name).value = QQualifiedName.empty) ∧
    (uri ∈ namespaceArray d →
      ∃ k : Nat, (namespaceArray d)[k]? = some uri ∧
        (∀ j : Nat, j < k → (namespaceArray d)[j]? ≠ some uri) ∧
        qualifiedNameFromNamespaceUri d uri name = ⟨⟨(k : Int), name⟩, true, []⟩) := by
  by_cases hmem : uri ∈ namespaceArray d
  · have hne : namespaceArray d ≠ [] := List.ne_nil_of_mem hmem
    have hemp : QStringList.isEmpty (namespaceArray d) = false := by
      cases h : namespaceArray d with
      | nil => exact absurd h hne
      | cons x xs => rfl
    obtain ⟨k, hk, hfirst⟩ := exists_first_of_mem uri (namespaceArray d) hmem
    have hidx := QStringList.indexOf_first (namespaceArray d) uri k hk hfirst
    have hk0 : ¬ ((k : Int) < 0) := by omega
    have hq : qualifiedNameFromNamespaceUri d uri name = ⟨⟨(k : Int), name⟩, true, []⟩ := by
      simp [qualifiedNameFromNamespaceUri, hemp, hidx, hk0]
    refine ⟨?_, ?_, fun _ => ⟨k, hk, hfirst, hq⟩⟩
    · simp [hq, hne, hmem]
    · simp [hq]
  · have hidx : QStringList.indexOf (namespaceArray d) uri < 0 :=
      (QStringList.indexOf_neg_iff _ _).mpr hmem
    have hq : (qualifiedNameFromNamespaceUri d uri name).ok = false ∧
        (qualifiedNameFromNamespaceUri d uri name).value = QQualifiedName.empty := by
      unfold qualifiedNameFromNamespaceUri
      split
      · exact ⟨rfl, rfl⟩
      · simp [hidx]
    exact ⟨by simp [hq.1, hmem], fun _ => hq.2, fun h => absurd h hmem⟩

/-- Witness of C7: over the table `urn:a`, `urn:b` the URI `urn:b` gives index 1 and the
name unchanged. -/
theorem qualifiedNameFromNamespaceUri_spec_witness :
    ∃ k : Nat, tableAB[k]? = some "urn:b".toList ∧
      (∀ j : Nat, j < k → tableAB[j]? ≠ some "urn:b".toList) ∧
      qualifiedNameFromNamespaceUri (mkClient nullImpl ClientState.Connected tableAB)
        "urn:b".toList "Name".toList = ⟨⟨(k : Int), "Name".toList⟩, true, []⟩ :=
  (qualifiedNameFromNamespaceUri_spec (mkClient nullImpl ClientState.Connected tableAB)
    "urn:b".toList "Name".toList).2.2 (by decide)

/-! ## node -/

/-- C8: `node(nodeId)` returns no node and makes no call to the backend whenever the state
is not `Connected`; in state `Connected` it makes the one backend call `node(nodeId)` and
returns its result, so that it is null exactly when the backend returns null. -/
theorem node_spec (d : QOpcUaClientPrivate) (nodeId : QString) :
    (state d ≠ ClientState.Connected → node d nodeId = ⟨none, [], []⟩) ∧
    (state d = ClientState.Connected →
      node d nodeId = ⟨d.m_impl.node nodeId, [], [Dispatch.implNode nodeId]⟩ ∧
      ((node d nodeId).value = none ↔ d.m_impl.node nodeId = none)) := by
  constructor
  · intro h
    simp [node, h]
  · intro h
    simp [node, h]

/-- Witness of C8: a closing client gets no node for the root node id, a connected one gets
the node of the backend. -/
theorem node_spec_witness :
    node (mkClient rootImpl ClientState.Closing tableAB) "ns=0;i=84".toList = ⟨none, [], []⟩ ∧
    node (mkClient rootImpl ClientState.Connected tableAB) "ns=0;i=84".toList
      = ⟨some ⟨84⟩, [], [Dispatch.implNode "ns=0;i=84".toList]⟩ :=
  ⟨(node_spec (mkClient rootImpl ClientState.Closing tableAB) "ns=0;i=84".toList).1
      (by decide),
   ((node_spec (mkClient rootImpl ClientState.Connected tableAB) "ns=0;i=84".toList).2
      rfl).1⟩

/-- Counterexample to C9: a connected client, and an expanded node id whose resolution
succeeds, for which `node(expandedNodeId)` returns no node although the backend has one for
the resolved node id: on server 1 without URI, and on server 0 with an empty node id. -/
theorem nodeExpanded_resolved_not_delegated :
    (state (mkClient rootImpl ClientState.Connected tableAB) = ClientState.Connected ∧
      resolveExpandedNodeId (mkClient rootImpl ClientState.Connected tableAB)
        ⟨1, [], "ns=0;i=84".toList⟩ = ⟨"ns=0;i=84".toList, true, []⟩ ∧
      rootImpl.node "ns=0;i=84".toList = some ⟨84⟩ ∧
      nodeExpanded (mkClient rootImpl ClientState.Connected tableAB)
        ⟨1, [], "ns=0;i=84".toList⟩ = ⟨none, [Warning.nodeOnDifferentServer], []⟩) ∧
    (state (mkClient anyImpl ClientState.Connected tableAB) = ClientState.Connected ∧
      resolveExpandedNodeId (mkClient anyImpl ClientState.Connected tableAB)
        ⟨0, [], []⟩ = ⟨[], true, []⟩ ∧
      anyImpl.node [] = some ⟨7⟩ ∧
      nodeExpanded (mkClient anyImpl ClientState.Connected tableAB)
        ⟨0, [], []⟩ = ⟨none, [], []⟩) := by
  decide

/-- C9, amended: `node(expandedNodeId)` returns no node whenever the state is not
`Connected` or the resolution fails; whenever the state is `Connected`, the server index is
0 and the resolution succeeds with a non-empty string, it makes the one backend call
`node` on the resolved node id and returns its result. -/
theorem nodeExpanded_spec (d : QOpcUaClientPrivate) (e : QExpandedNodeId) :
    ((state d ≠ ClientState.Connected ∨ (resolveExpandedNodeId d e).ok = false) →
      (nodeExpanded d e).value = none) ∧
    (state d = ClientState.Connected → e.serverIndex = 0 →
      (resolveExpandedNodeId d e).ok = true → (resolveExpandedNodeId d e).value ≠ [] →
      (nodeExpanded d e).value = d.m_impl.node (resolveExpandedNodeId d e).value ∧
      (nodeExpanded d e).calls = [Dispatch.implNode (resolveExpandedNodeId d e).value]) := by
  constructor
  · intro h
    unfold nodeExpanded
    dsimp only
    split_ifs with h1 h2
    · rfl
    · rfl
    · rcases h with h | h
      · exact node_value_of_not_connected d _ h
      · have hv := resolveExpandedNodeId_value_of_failed d e h
        rw [hv] at h2
        exact absurd rfl h2
  · intro hc hs _ hv
    have hne : ¬ (QString.isEmpty (resolveExpandedNodeId d e).value = true) := by
      rw [QString.isEmpty_iff]
      exact hv
    have hs2 : ¬ (e.serverIndex ≠ 0) := fun h => h hs
    unfold nodeExpanded
    dsimp only
    rw [if_neg hs2, if_pos hne]
    simp [node, hc]

/-- C10: `node(expandedNodeId)` returns no node for every expanded node id whose server
index is not 0, in every state, over every namespace table and with or without a namespace
URI; the backend is not called, and the different-server warning is logged. -/
theorem nodeExpanded_crossServer (d : QOpcUaClientPrivate) (e : QExpandedNodeId)
    (hs : e.serverIndex ≠ 0) :
    nodeExpanded d e = ⟨none, [Warning.nodeOnDifferentServer], []⟩ := by
  simp [nodeExpanded, hs]

/-- Witness of C10: a connected client whose backend has a node for every node id, asked
for a node on server 2. -/
theorem nodeExpanded_crossServer_witness :
    nodeExpanded (mkClient anyImpl ClientState.Connected tableAB)
        ⟨2, "urn:a".toList, "i=default;i=42".toList⟩
      = ⟨none, [Warning.nodeOnDifferentServer], []⟩ :=
  nodeExpanded_crossServer (mkClient anyImpl ClientState.Connected tableAB)
    ⟨2, "urn:a".toList, "i=default;i=42".toList⟩ (by decide)

/-- Witness of the amended C9: a connected client over the table `urn:a`, `urn:b` whose
backend knows the root node, asked for `i=default;i=84` in `urn:a`, looks up `ns=0;i=84`. -/
theorem nodeExpanded_spec_witness :
    (nodeExpanded (mkClient rootImpl ClientState.Connected tableAB)
        ⟨0, "urn:a".toList, "i=default;i=84".toList⟩).value = some ⟨84⟩ ∧
    (nodeExpanded (mkClient rootImpl ClientState.Connected tableAB)
        ⟨0, "urn:a".toList, "i=default;i=84".toList⟩).calls
      = [Dispatch.implNode "ns=0;i=84".toList] ∧
    (nodeExpanded (mkClient rootImpl ClientState.Closing tableAB)
        ⟨0, "urn:a".toList, "i=default;i=84".toList⟩).value = none :=
  ⟨((nodeExpanded_spec (mkClient rootImpl ClientState.Connected tableAB)
      ⟨0, "urn:a".toList, "i=default;i=84".toList⟩).2 rfl rfl (by decide) (by decide)).1,
   ((nodeExpanded_spec (mkClient rootImpl ClientState.Connected tableAB)
      ⟨0, "urn:a".toList, "i=default;i=84".toList⟩).2 rfl rfl (by decide) (by decide)).2,
   (nodeExpanded_spec (mkClient rootImpl ClientState.Closing tableAB)
      ⟨0, "urn:a".toList, "i=default;i=84".toList⟩).1 (Or.inl (by decide))⟩

/-! ## Dispatching members -/

/-- C11: `updateNamespaceArray()` returns false whenever the state is not `Connected`,
without a call to the refresh of the private object, and leaves the private object, hence
the cached namespace table, the state, the error and the url, as it found them; in state
`Connected` it makes the one refresh call and returns its dispatch result. -/
theorem updateNamespaceArray_spec (d refreshed : QOpcUaClientPrivate) :
    (state d ≠ ClientState.Connected →
      updateNamespaceArrayStep d refreshed = ⟨⟨false, [], []⟩, d⟩ ∧
      namespaceArray (updateNamespaceArrayStep d refreshed).after = namespaceArray d ∧
      state (updateNamespaceArrayStep d refreshed).after = state d ∧
      error (updateNamespaceArrayStep d refreshed).after = error d ∧
      url (updateNamespaceArrayStep d refreshed).after = url d) ∧
    (state d = ClientState.Connected →
      (updateNamespaceArrayStep d refreshed).outcome
        = ⟨d.updateNamespaceArray, [], [Dispatch.privateUpdateNamespaceArray]⟩) ∧
    (updateNamespaceArrayStep d refreshed).outcome = updateNamespaceArray d := by
  refine ⟨?_, ?_, ?_⟩
  · intro h
    simp [updateNamespaceArrayStep, h]
  · intro h
    simp [updateNamespaceArrayStep, h]
  · unfold updateNamespaceArrayStep updateNamespaceArray
    split_ifs <;> rfl

/-- Witness of C11: a closing client is refused and left as it was, whatever the refresh
would have done; a connected client hands back the dispatch result of the refresh. -/
theorem updateNamespaceArray_spec_witness :
    updateNamespaceArrayStep closingClient refusedClient = ⟨⟨false, [], []⟩, closingClient⟩ ∧
    (updateNamespaceArrayStep (mkClient nullImpl ClientState.Connected []) closingClient).outcome
      = ⟨true, [], [Dispatch.privateUpdateNamespaceArray]⟩ :=
  ⟨((updateNamespaceArray_spec closingClient refusedClient).1 (by decide)).1,
   (updateNamespaceArray_spec (mkClient nullImpl ClientState.Connected []) closingClient).2.1
      rfl⟩

/-- C12: `requestEndpoints(url)` makes the one backend call `requestEndpoints(url)` and
returns its answer in every state and for every url, and leaves the private object, hence
the state, the error, the url and the namespace table, as it found them. -/
theorem requestEndpoints_spec (d : QOpcUaClientPrivate) (url : QUrl) :
    requestEndpoints d url
      = ⟨d.m_impl.requestEndpoints url, [], [Dispatch.implRequestEndpoints url]⟩ ∧
    (∀ s : ClientState,
      (requestEndpoints { d with m_state := s } url).value = d.m_impl.requestEndpoints url ∧
      (requestEndpoints { d with m_state := s } url).calls
        = [Dispatch.implRequestEndpoints url]) ∧
    requestEndpointsStep d url = ⟨requestEndpoints d url, d⟩ ∧
    state (requestEndpointsStep d url).after = state d ∧
    error (requestEndpointsStep d url).after = error d ∧
    QOpcUaClient.url (requestEndpointsStep d url).after = QOpcUaClient.url d ∧
    namespaceArray (requestEndpointsStep d url).after = namespaceArray d := by
  refine ⟨rfl, fun s => ⟨rfl, rfl⟩, rfl, rfl, rfl, rfl, rfl⟩

/-- Witness of C12: a disconnected client over a refusing backend and a closing client
over an accepting one both hand back the answer of the backend. -/
theorem requestEndpoints_spec_witness :
    requestEndpoints (mkClient nullImpl ClientState.Disconnected []) "opc.tcp://h".toList
      = ⟨false, [], [Dispatch.implRequestEndpoints "opc.tcp://h".toList]⟩ ∧
    requestEndpoints closingClient "opc.tcp://h".toList
      = ⟨true, [], [Dispatch.implRequestEndpoints "opc.tcp://h".toList]⟩ :=
  ⟨(requestEndpoints_spec (mkClient nullImpl ClientState.Disconnected [])
      "opc.tcp://h".toList).1,
   (requestEndpoints_spec closingClient "opc.tcp://h".toList).1⟩

/-! ## Resolution as a function of the table -/

/-- C13: two private objects that hold the same namespace table, whatever their state,
error, url and backend, give the same result of `resolveExpandedNodeId` on the same input:
the same string, the same flag and the same warnings; and the call leaves each of them as
it found it. -/
theorem resolveExpandedNodeId_pure (d₁ d₂ : QOpcUaClientPrivate) (e : QExpandedNodeId)
    (h : namespaceArray d₁ = namespaceArray d₂) :
    resolveExpandedNodeId d₁ e = resolveExpandedNodeId d₂ e ∧
    (resolveExpandedNodeIdStep d₁ e).outcome = (resolveExpandedNodeIdStep d₂ e).outcome ∧
    (resolveExpandedNodeIdStep d₁ e).after = d₁ ∧
    (resolveExpandedNodeIdStep d₂ e).after = d₂ := by
  have key : resolveExpandedNodeId d₁ e = resolveExpandedNodeId d₂ e := by
    unfold resolveExpandedNodeId
    rw [h]
  exact ⟨key, key, rfl, rfl⟩

/-- Witness of C13: a closing client after a refused login and a connected one, over the
same table, resolve `i=default;i=42` in `urn:b` alike. -/
theorem resolveExpandedNodeId_pure_witness :
    resolveExpandedNodeId closingClient ⟨0, "urn:b".toList, "i=default;i=42".toList⟩
      = resolveExpandedNodeId refusedClient ⟨0, "urn:b".toList, "i=default;i=42".toList⟩ :=
  (resolveExpandedNodeId_pure closingClient refusedClient
    ⟨0, "urn:b".toList, "i=default;i=42".toList⟩ rfl).1

/-! ## Shape of the result -/

theorem qualifiedNameFromNamespaceUri_value_of_failed (d : QOpcUaClientPrivate)
    (uri name : QString) (h : (qualifiedNameFromNamespaceUri d uri name).ok = false) :
    (qualifiedNameFromNamespaceUri d uri name).value = QQualifiedName.empty := by
  unfold qualifiedNameFromNamespaceUri at h ⊢
  dsimp only at h ⊢
  split_ifs at h ⊢ <;> rfl

theorem resolveExpandedNodeId_of_first (d : QOpcUaClientPrivate) (e : QExpandedNodeId)
    (k : Nat) (hs : e.serverIndex = 0) (hu : e.namespaceUri ≠ [])
    (hk : (namespaceArray d)[k]? = some e.namespaceUri)
    (hfirst : ∀ j, j < k → (namespaceArray d)[j]? ≠ some e.namespaceUri) :
    resolveExpandedNodeId d e =
      if (QString.split ';' e.nodeId).length = 2 then
        ⟨"ns=".toList ++ Nat.toDigits 10 k ++ ";".toList
          ++ QStringList.at (QString.split ';' e.nodeId) 1, true, []⟩
      else ⟨[], false, [Warning.failedToSplitNodeId e.nodeId]⟩ := by
  have hne : namespaceArray d ≠ [] := by
    intro h0
    rw [h0] at hk
    simp at hk
  have hk0 : ¬ ((k : Int) < 0) := by omega
  have hidx := QStringList.indexOf_first (namespaceArray d) e.namespaceUri k hk hfirst
  have he : QString.isEmpty e.namespaceUri = false := (QString.isEmpty_false_iff _).mpr hu
  by_cases hlen : (QString.split ';' e.nodeId).length = 2
  · simp [resolveExpandedNodeId, he, hs, hne, hk0, hidx, hlen, nsArg, QString.number_natCast,
      QStringList.size]
  · simp [resolveExpandedNodeId, he, hs, hne, hk0, hidx, hlen, QStringList.size]

theorem resolveExpandedNodeId_uri_of_ok (d : QOpcUaClientPrivate) (e : QExpandedNodeId)
    (hu : e.namespaceUri ≠ []) (hok : (resolveExpandedNodeId d e).ok = true) :
    e.serverIndex = 0 ∧ e.namespaceUri ∈ namespaceArray d := by
  have he : QString.isEmpty e.namespaceUri = false := (QString.isEmpty_false_iff _).mpr hu
  by_cases hs : e.serverIndex = 0
  · refine ⟨hs, ?_⟩
    by_contra hmem
    have hidx : QStringList.indexOf (namespaceArray d) e.namespaceUri < 0 :=
      (QStringList.indexOf_neg_iff _ _).mpr hmem
    by_cases hne : namespaceArray d = []
    · simp [resolveExpandedNodeId, he, hs, hne, QStringList.size] at hok
    · simp [resolveExpandedNodeId, he, hs, hne, hidx, QStringList.size] at hok
  · exfalso
    simp [resolveExpandedNodeId, he, hs] at hok

theorem QString.split_length_eq_two_iff (s : QString) :
    (QString.split ';' s).length = 2 ↔ s.count ';' = 1 := by
  rw [QString.split_length]
  omega

/-- C14: whenever `resolveExpandedNodeId` stores `ok = false` the string it returns is
empty, and whenever `qualifiedNameFromNamespaceUri` stores `ok = false` the qualified name
it returns is the default-constructed one. -/
theorem failed_gives_empty (d : QOpcUaClientPrivate) (e : QExpandedNodeId)
    (uri name : QString) :
    ((resolveExpandedNodeId d e).ok = false → (resolveExpandedNodeId d e).value = []) ∧
    ((qualifiedNameFromNamespaceUri d uri name).ok = false →
      (qualifiedNameFromNamespaceUri d uri name).value = QQualifiedName.empty) :=
  ⟨resolveExpandedNodeId_value_of_failed d e,
   qualifiedNameFromNamespaceUri_value_of_failed d uri name⟩

/-- Witness of C14: a malformed node id in a known namespace, and a qualified name in an
unknown namespace. -/
theorem failed_gives_empty_witness :
    (resolveExpandedNodeId refusedClient ⟨0, "urn:a".toList, "a;b;c".toList⟩).value = [] ∧
    (qualifiedNameFromNamespaceUri refusedClient "urn:c".toList "Name".toList).value
      = QQualifiedName.empty :=
  ⟨(failed_gives_empty refusedClient ⟨0, "urn:a".toList, "a;b;c".toList⟩
      "urn:c".toList "Name".toList).1 (by decide),
   (failed_gives_empty refusedClient ⟨0, "urn:a".toList, "a;b;c".toList⟩
      "urn:c".toList "Name".toList).2 (by decide)⟩

/-- C15: with server index 0, a non-empty namespace URI and a non-empty namespace table
that does not hold the URI, the resolution fails with the failed-to-resolve-namespace
warning whatever the node id is, malformed or not; and whenever the failed-to-split warning
is logged, the namespace URI is non-empty and held by the table. -/
theorem resolveExpandedNodeId_unknownNamespace_first (d : QOpcUaClientPrivate)
    (e : QExpandedNodeId) :
    (e.serverIndex = 0 → e.namespaceUri ≠ [] → namespaceArray d ≠ [] →
      e.namespaceUri ∉ namespaceArray d →
      resolveExpandedNodeId d e
        = ⟨[], false, [Warning.failedToResolveNamespace e.namespaceUri]⟩) ∧
    (∀ n, Warning.failedToSplitNodeId n ∈ (resolveExpandedNodeId d e).warnings →
      e.namespaceUri ≠ [] ∧ e.namespaceUri ∈ namespaceArray d) := by
  constructor
  · intro hs hu hne hmem
    have he : QString.isEmpty e.namespaceUri = false := (QString.isEmpty_false_iff _).mpr hu
    have hidx : QStringList.indexOf (namespaceArray d) e.namespaceUri < 0 :=
      (QStringList.indexOf_neg_iff _ _).mpr hmem
    simp [resolveExpandedNodeId, he, hs, hne, hidx, QStringList.size]
  · intro n hn
    by_cases hu : e.namespaceUri = []
    · exfalso
      have he : QString.isEmpty e.namespaceUri = true := (QString.isEmpty_iff _).mpr hu
      unfold resolveExpandedNodeId at hn
      simp [he] at hn
    · refine ⟨hu, ?_⟩
      by_contra hmem
      have he : QString.isEmpty e.namespaceUri = false := (QString.isEmpty_false_iff _).mpr hu
      have hidx : QStringList.indexOf (namespaceArray d) e.namespaceUri < 0 :=
        (QStringList.indexOf_neg_iff _ _).mpr hmem
      by_cases hs : e.serverIndex = 0
      · by_cases hne : namespaceArray d = []
        · simp [resolveExpandedNodeId, he, hs, hne, QStringList.size] at hn
        · simp [resolveExpandedNodeId, he, hs, hne, hidx, QStringList.size] at hn
      · simp [resolveExpandedNodeId, he, hs] at hn

/-- Witness of C15: over the table `urn:a`, `urn:b` the URI `urn:c` with the malformed node
id `no-semicolon` fails as an unknown namespace. -/
theorem resolveExpandedNodeId_unknownNamespace_first_witness :
    resolveExpandedNodeId refusedClient ⟨0, "urn:c".toList, "no-semicolon".toList⟩
      = ⟨[], false, [Warning.failedToResolveNamespace "urn:c".toList]⟩ :=
  (resolveExpandedNodeId_unknownNamespace_first refusedClient
    ⟨0, "urn:c".toList, "no-semicolon".toList⟩).1 rfl (by decide) (by decide) (by decide)

theorem QString.split_pair (p r : QString) (hp : ';' ∉ p) (hr : ';' ∉ r) :
    QString.split ';' (p ++ ';' :: r) = [p, r] := by
  rw [QString.split_append ';' r p hp, QString.split_of_not_mem ';' r hr]

theorem resolveExpandedNodeId_of_first_pair (d : QOpcUaClientPrivate) (uri p r : QString)
    (k : Nat) (hu : uri ≠ []) (hk : (namespaceArray d)[k]? = some uri)
    (hfirst : ∀ j, j < k → (namespaceArray d)[j]? ≠ some uri)
    (hp : ';' ∉ p) (hr : ';' ∉ r) :
    resolveExpandedNodeId d ⟨0, uri, p ++ ';' :: r⟩
      = ⟨"ns=".toList ++ Nat.toDigits 10 k ++ ";".toList ++ r, true, []⟩ := by
  rw [resolveExpandedNodeId_of_first d ⟨0, uri, p ++ ';' :: r⟩ k rfl hu hk hfirst]
  simp [QString.split_pair p r hp hr, QStringList.at]

/-- C16: whenever `resolveExpandedNodeId` succeeds on an input with a non-empty namespace
URI, the server index is 0 and the string returned is non-empty and reads `ns=`, the decimal
text of an index `k`, a semicolon and a remainder `r`, where `k` is below the length of the
namespace table and is the first position at which the table holds the input URI. -/
theorem resolveExpandedNodeId_sound (d : QOpcUaClientPrivate) (e : QExpandedNodeId)
    (hu : e.namespaceUri ≠ []) (hok : (resolveExpandedNodeId d e).ok = true) :
    e.serverIndex = 0 ∧ (resolveExpandedNodeId d e).value ≠ [] ∧
    ∃ (k : Nat) (r : QString),
      k < (namespaceArray d).length ∧
      (namespaceArray d)[k]? = some e.namespaceUri ∧
      (∀ j : Nat, j < k → (namespaceArray d)[j]? ≠ some e.namespaceUri) ∧
      (resolveExpandedNodeId d e).value
        = "ns=".toList ++ Nat.toDigits 10 k ++ ";".toList ++ r := by
  obtain ⟨hs, hmem⟩ := resolveExpandedNodeId_uri_of_ok d e hu hok
  obtain ⟨k, hk, hfirst⟩ := exists_first_of_mem e.namespaceUri (namespaceArray d) hmem
  have hres := resolveExpandedNodeId_of_first d e k hs hu hk hfirst
  have hlen : (QString.split ';' e.nodeId).length = 2 := by
    by_contra hlen
    rw [hres, if_neg hlen] at hok
    exact Bool.noConfusion hok
  rw [if_pos hlen] at hres
  have hklt : k < (namespaceArray d).length := by
    by_contra hge
    have hnone : (namespaceArray d)[k]? = none := List.getElem?_eq_none (by omega)
    rw [hnone] at hk
    exact absurd hk (by simp)
  refine ⟨hs, ?_, k, QStringList.at (QString.split ';' e.nodeId) 1, hklt, hk, hfirst, ?_⟩
  · rw [hres]
    simp
  · rw [hres]

/-- Witness of C16: over the table `urn:a`, `urn:b` the URI `urn:b` with node id
`i=default;i=42` resolves to a string of the stated shape. -/
theorem resolveExpandedNodeId_sound_witness :
    ∃ (k : Nat) (r : QString),
      k < (namespaceArray refusedClient).length ∧
      (namespaceArray refusedClient)[k]? = some "urn:b".toList ∧
      (∀ j : Nat, j < k → (namespaceArray refusedClient)[j]? ≠ some "urn:b".toList) ∧
      (resolveExpandedNodeId refusedClient
          ⟨0, "urn:b".toList, "i=default;i=42".toList⟩).value
        = "ns=".toList ++ Nat.toDigits 10 k ++ ";".toList ++ r :=
  (resolveExpandedNodeId_sound refusedClient ⟨0, "urn:b".toList, "i=default;i=42".toList⟩
    (by decide) (by decide)).2.2

/-- C17: with server index 0 and a non-empty namespace URI whose first occurrence in the
namespace table is at index `k`, the resolution succeeds exactly when the node id has one
semicolon; the split keeps empty parts, so the node ids `;` and `x;` both resolve to `ns=`,
the decimal text of `k` and a semicolon. -/
theorem resolveExpandedNodeId_ok_iff_one_semicolon (d : QOpcUaClientPrivate)
    (uri nodeId : QString) (k : Nat) (hu : uri ≠ [])
    (hk : (namespaceArray d)[k]? = some uri)
    (hfirst : ∀ j, j < k → (namespaceArray d)[j]? ≠ some uri) :
    ((resolveExpandedNodeId d ⟨0, uri, nodeId⟩).ok = true ↔ nodeId.count ';' = 1) ∧
    QString.split ';' ";".toList = [[], []] ∧
    QString.split ';' "x;".toList = ["x".toList, []] ∧
    resolveExpandedNodeId d ⟨0, uri, ";".toList⟩
      = ⟨"ns=".toList ++ Nat.toDigits 10 k ++ ";".toList, true, []⟩ ∧
    resolveExpandedNodeId d ⟨0, uri, "x;".toList⟩
      = ⟨"ns=".toList ++ Nat.toDigits 10 k ++ ";".toList, true, []⟩ := by
  refine ⟨?_, by decide, by decide, ?_, ?_⟩
  · rw [resolveExpandedNodeId_of_first d ⟨0, uri, nodeId⟩ k rfl hu hk hfirst,
      ← QString.split_length_eq_two_iff]
    by_cases hlen : (QString.split ';' nodeId).length = 2
    · simp [hlen]
    · simp [hlen]
  · have h := resolveExpandedNodeId_of_first_pair d uri [] [] k hu hk hfirst (by simp)
      (by simp)
    simpa using h
  · have h := resolveExpandedNodeId_of_first_pair d uri "x".toList [] k hu hk hfirst
      (by decide) (by simp)
    simpa using h

/-- Witness of C17: over the table `urn:a`, `urn:b` and the URI `urn:b`, the node id
`a;b;c` is refused and the node ids `;` and `x;` resolve to `ns=1;`. -/
theorem resolveExpandedNodeId_ok_iff_one_semicolon_witness :
    ((resolveExpandedNodeId refusedClient ⟨0, "urn:b".toList, "a;b;c".toList⟩).ok = true ↔
      "a;b;c".toList.count ';' = 1) ∧
    resolveExpandedNodeId refusedClient ⟨0, "urn:b".toList, ";".toList⟩
      = ⟨"ns=1;".toList, true, []⟩ ∧
    resolveExpandedNodeId refusedClient ⟨0, "urn:b".toList, "x;".toList⟩
      = ⟨"ns=1;".toList, true, []⟩ :=
  ⟨(resolveExpandedNodeId_ok_iff_one_semicolon refusedClient "urn:b".toList "a;b;c".toList 1
      (by decide) (by decide) (by decide)).1,
   (resolveExpandedNodeId_ok_iff_one_semicolon refusedClient "urn:b".toList "a;b;c".toList 1
      (by decide) (by decide) (by decide)).2.2.2.1,
   (resolveExpandedNodeId_ok_iff_one_semicolon refusedClient "urn:b".toList "a;b;c".toList 1
      (by decide) (by decide) (by decide)).2.2.2.2⟩

/-- C18: in the resolution of a namespace URI that the namespace table holds, the part of
the node id before the semicolon is not looked at: two node ids `p₁;r` and `p₂;r` without
further semicolon give the same result, whatever the server index; on server index 0 that
result is `ns=`, the decimal text of the first index of the URI, a semicolon and `r`, so
that an index carried before the semicolon is replaced by the resolved one. -/
theorem resolveExpandedNodeId_placeholder_ignored (d : QOpcUaClientPrivate) (s : Nat)
    (uri p₁ p₂ r : QString) (hu : uri ≠ []) (hmem : uri ∈ namespaceArray d)
    (hp₁ : ';' ∉ p₁) (hp₂ : ';' ∉ p₂) (hr : ';' ∉ r) :
    resolveExpandedNodeId d ⟨s, uri, p₁ ++ ';' :: r⟩
      = resolveExpandedNodeId d ⟨s, uri, p₂ ++ ';' :: r⟩ ∧
    ∃ k : Nat, (namespaceArray d)[k]? = some uri ∧
      (∀ j : Nat, j < k → (namespaceArray d)[j]? ≠ some uri) ∧
      resolveExpandedNodeId d ⟨0, uri, p₁ ++ ';' :: r⟩
        = ⟨"ns=".toList ++ Nat.toDigits 10 k ++ ";".toList ++ r, true, []⟩ ∧
      resolveExpandedNodeId d ⟨0, uri, p₂ ++ ';' :: r⟩
        = ⟨"ns=".toList ++ Nat.toDigits 10 k ++ ";".toList ++ r, true, []⟩ := by
  obtain ⟨k, hk, hfirst⟩ := exists_first_of_mem uri (namespaceArray d) hmem
  have h₁ := resolveExpandedNodeId_of_first_pair d uri p₁ r k hu hk hfirst hp₁ hr
  have h₂ := resolveExpandedNodeId_of_first_pair d uri p₂ r k hu hk hfirst hp₂ hr
  refine ⟨?_, k, hk, hfirst, h₁, h₂⟩
  by_cases hs : s = 0
  · subst hs
    rw [h₁, h₂]
  · have he : QString.isEmpty uri = false := (QString.isEmpty_false_iff uri).mpr hu
    simp [resolveExpandedNodeId, he, hs]

/-- Witness of C18: over the table `urn:a`, `urn:b` and the URI `urn:b`, the node ids
`ns=5;i=42` and `i=default;i=42` resolve alike, to `ns=1;i=42`. -/
theorem resolveExpandedNodeId_placeholder_ignored_witness :
    resolveExpandedNodeId refusedClient ⟨0, "urn:b".toList, "ns=5;i=42".toList⟩
      = resolveExpandedNodeId refusedClient ⟨0, "urn:b".toList, "i=default;i=42".toList⟩ ∧
    resolveExpandedNodeId refusedClient ⟨0, "urn:b".toList, "ns=5;i=42".toList⟩
      = ⟨"ns=1;i=42".toList, true, []⟩ :=
  ⟨(resolveExpandedNodeId_placeholder_ignored refusedClient 0 "urn:b".toList "ns=5".toList
      "i=default".toList "i=42".toList (by decide) (by decide) (by decide) (by decide)
      (by decide)).1,
   by decide⟩
